import Mathlib

/-!
Shallow embedding of the Alfred voice-companion frontend
(`src/frontend/src/services/emotionAnalysis.js` and `src/frontend/src/App.jsx`),
with theorems checking the natural-language specification against it.

JS numbers used for classifier scores and volume are embedded as `ℚ`
(only order and arithmetic on exact literals matter here), timestamps as `ℤ`
milliseconds, and JS strings as Lean `String`.  External effects (the fetch
to the Hugging Face endpoint, the wall clock) are passed in explicitly as
oracle parameters.
-/

namespace Alfred

/-! ## Emotion analysis service — `src/frontend/src/services/emotionAnalysis.js` -/

/-- One `{label, score}` pair from a classifier-provider response. -/
structure LabelScore where
  label : String
  score : ℚ
  deriving Repr, DecidableEq

/-- The normalized classification result object.  The JS object carries the
fields `emotion`, `confidence`, `scores`, `reasoning`, `error`, any of which
may be absent; absent fields are `none` / `[]`.  `scores` is the JS object
used as a finite map, embedded as an association list. -/
structure ClassificationResult where
  emotion : String
  confidence : Option ℚ := none
  scores : List (String × ℚ) := []
  reasoning : Option String := none
  error : Option String := none
  deriving Repr, DecidableEq

/-- The `emotionMapping` lookup table from `analyzeEmotionWithHuggingFace`
(emotionAnalysis.js lines 62–71): JS object literal keyed by lower-case
provider labels. -/
def emotionMapping (label : String) : Option String :=
  if label = "joy" then some "happy"
  else if label = "happiness" then some "happy"
  else if label = "sadness" then some "sad"
  else if label = "anger" then some "angry"
  else if label = "fear" then some "sad"
  else if label = "surprise" then some "surprised"
  else if label = "neutral" then some "neutral"
  else if label = "disgust" then some "angry"
  else none

/-- Model of JS `String.prototype.toLowerCase` (a platform function), on the
ASCII range the provider labels use. -/
def jsToLower (s : String) : String :=
  ⟨s.data.map fun c =>
    if 'A' ≤ c ∧ c ≤ 'Z' then Char.ofNat (c.toNat + 32) else c⟩

/-- Embedding of `topEmotion.label?.toLowerCase() || 'neutral'` followed by
`emotionMapping[label] || 'neutral'` (emotionAnalysis.js lines 73–74).
The empty string is falsy in JS, hence the inner default. -/
def jsMapLabel (label : String) : String :=
  let l := if jsToLower label = "" then "neutral" else jsToLower label
  (emotionMapping l).getD "neutral"

/-- Embedding of `emotions.reduce((max, curr) => curr.score > max.score ? curr : max)`
(emotionAnalysis.js lines 57–59): `Array.prototype.reduce` with no initial
value folds the tail with the head as accumulator. -/
def reduceMax (first : LabelScore) (rest : List LabelScore) : LabelScore :=
  rest.foldl (fun mx curr => if curr.score > mx.score then curr else mx) first

/-- Shape of the JSON body returned by the Hugging Face endpoint, as the
source discriminates it: an object with an `error` field, an array whose
first element is an array (the expected `[[{label, score}, ...]]` shape), a
non-nested array, or anything else. -/
inductive HFJson where
  | errorField (msg : String)
  | nested (first : List LabelScore) (rest : List (List LabelScore))
  | flat (xs : List LabelScore)
  | otherShape
  deriving Repr, DecidableEq

/-- Outcome of the single `fetch` to the Hugging Face endpoint: non-2xx
status, a thrown network error, or a 2xx response with a JSON body. -/
inductive HFOutcome where
  | httpError (status : Nat)
  | fetchThrow (msg : String)
  | ok (body : HFJson)
  deriving Repr, DecidableEq

/-- The guard `!HUGGINGFACE_API_KEY || HUGGINGFACE_API_KEY === 'your_huggingface_key_here'`
(emotionAnalysis.js line 14): an absent binding and the empty string are both
falsy. -/
def hfKeyConfigured (key : Option String) : Bool :=
  match key with
  | none => false
  | some k => ¬(k = "" ∨ k = "your_huggingface_key_here")

/-- Processing of the nested emotions array (emotionAnalysis.js lines 56–83).
`reduce` on an empty JS array with no initial value throws a `TypeError`.
The `reasoning` string elides the JS percentage formatting of the score. -/
def mapTopEmotion (emotions : List LabelScore) : Except String ClassificationResult :=
  match emotions with
  | [] => .error "Reduce of empty array with no initial value"
  | e :: rest =>
    let topEmotion := reduceMax e rest
    let mappedEmotion := jsMapLabel topEmotion.label
    .ok { emotion := mappedEmotion
          confidence := some topEmotion.score
          scores := [(mappedEmotion, topEmotion.score)]
          reasoning := some ("Detected " ++ topEmotion.label) }

/-- Embedding of `analyzeEmotionWithHuggingFace` (emotionAnalysis.js lines 11–92).  A
thrown JS error is an `Except.error` carrying the error message.  The
response body dispatch follows the source: a `result.error` containing
"loading" throws the loading message; only an array-of-array body reaches
`mapTopEmotion`; everything else throws the invalid-format message. -/
def analyzeEmotionWithHuggingFace (key : Option String) (text : String)
    (outcome : HFOutcome) : Except String ClassificationResult :=
  if ¬hfKeyConfigured key then .error "No Hugging Face API key"
  else
    match outcome with
    | .fetchThrow msg => .error msg
    | .httpError status => .error ("Hugging Face API error: " ++ toString status)
    | .ok body =>
      match body with
      | .errorField msg =>
        if (msg.splitOn "loading").length ≠ 1 then
          .error "Model is loading, please try again"
        else .error "Invalid response format from Hugging Face"
      | .nested first _rest => mapTopEmotion first
      | .flat _ => .error "Invalid response format from Hugging Face"
      | .otherShape => .error "Invalid response format from Hugging Face"

/-- Model of JS `String.prototype.trim` (a platform function): strip leading
and trailing whitespace characters. -/
def jsTrim (s : String) : String :=
  ⟨((s.data.dropWhile Char.isWhitespace).reverse.dropWhile Char.isWhitespace).reverse⟩

/-- The constant `MIN_REQUEST_INTERVAL` (emotionAnalysis.js line 8), in milliseconds. -/
def MIN_REQUEST_INTERVAL : ℤ := 3000

/-- The rate-limiting block of `analyzeEmotionWithGemini` (emotionAnalysis.js
lines 99–107), under an idealized clock: `lastRequestTime` is the previously
recorded request start, `now` is `Date.now()` at entry, `setTimeout` suspends
for exactly the requested delay, and the second `Date.now()` reads
`now + waitTime`.  Returns the new value stored into `lastRequestTime`. -/
def rateLimitStep (lastRequestTime now : ℤ) : ℤ :=
  let timeSinceLastRequest := now - lastRequestTime
  if timeSinceLastRequest < MIN_REQUEST_INTERVAL then
    now + (MIN_REQUEST_INTERVAL - timeSinceLastRequest)
  else now

/-- Observable outcome of one `analyzeEmotionWithGemini` call: the returned
result object, how many network requests were issued, whether the
rate-limiter block was reached, and the value of `lastRequestTime` after the
call. -/
structure GeminiOutput where
  result : ClassificationResult
  networkCalls : Nat
  limiterAcquired : Bool
  lastRequestTimeAfter : ℤ
  deriving Repr, DecidableEq

/-- Network requests issued by one `analyzeEmotionWithHuggingFace` call: the
missing-key guard throws before `fetch`; otherwise exactly one `fetch` runs. -/
def hfNetworkCalls (key : Option String) : Nat :=
  if hfKeyConfigured key then 1 else 0

/-- Embedding of `analyzeEmotionWithGemini` (emotionAnalysis.js lines 94–131), the
classification entry point.  The Gemini branch is commented out in the
source; the function rate-limits, delegates to the Hugging Face analyzer and
maps any thrown error to the neutral fallback result. -/
def analyzeEmotionWithGemini (key : Option String) (text : String)
    (outcome : HFOutcome) (lastRequestTime now : ℤ) : GeminiOutput :=
  if text = "" ∨ jsTrim text = "" then
    { result := { emotion := "neutral", scores := [] }
      networkCalls := 0
      limiterAcquired := false
      lastRequestTimeAfter := lastRequestTime }
  else
    let newLast := rateLimitStep lastRequestTime now
    match analyzeEmotionWithHuggingFace key text outcome with
    | .ok r =>
      { result := r
        networkCalls := hfNetworkCalls key
        limiterAcquired := true
        lastRequestTimeAfter := newLast }
    | .error msg =>
      { result := { emotion := "neutral", scores := [], error := some msg
                    reasoning := some "Emotion analysis unavailable, defaulting to neutral" }
        networkCalls := hfNetworkCalls key
        limiterAcquired := true
        lastRequestTimeAfter := newLast }

/-! ## Gemini JSON extraction — `src/unnamed/part_001` line 75, `src/unnamed/part_002` line 76 -/

/-- The prefix of `s` ending at the last closing brace of `s`; `[]` when `s`
holds no closing brace. -/
def upToLastClose (s : List Char) : List Char :=
  ((s.reverse).dropWhile (fun c => c ≠ '}')).reverse

/-- Embedding of `content.match(/\x7b[\s\S]*\x7d/)` from the Gemini reply handling: the
regex is greedy, so the (single) match runs from the first opening brace of
the reply through the last closing brace, provided a closing brace occurs
after the first opening brace. -/
def jsonMatch (content : List Char) : Option (List Char) :=
  let fromFirstOpen := content.dropWhile (fun c => c ≠ '{')
  let m := upToLastClose fromFirstOpen
  if m = [] then none else some m

/-- The `jsonMatch` extraction on a `String` reply. -/
def jsonMatchStr (content : String) : Option String :=
  (jsonMatch content.data).map List.asString

/-- Helper for `firstBalanced`: consume characters, tracking brace nesting
depth, until the depth returns to zero; `acc` holds the consumed characters
in reverse. -/
def takeBalanced : List Char → Nat → List Char → Option (List Char)
  | [], _, _ => none
  | c :: rest, depth, acc =>
    if c = '{' then takeBalanced rest (depth + 1) (c :: acc)
    else if c = '}' then
      if depth = 1 then some ((c :: acc).reverse)
      else takeBalanced rest (depth - 1) (c :: acc)
    else takeBalanced rest depth (c :: acc)

/-- Modelled from the spec: "extract the first balanced `(...)`-brace
substring from the raw reply" — scan to the first opening brace, then take
characters through the brace that closes it. -/
def firstBalanced (content : List Char) : Option (List Char) :=
  takeBalanced (content.dropWhile (fun c => c ≠ '{')) 0 []

/-- The `firstBalanced` extraction on a `String` reply. -/
def firstBalancedStr (content : String) : Option String :=
  (firstBalanced content.data).map List.asString

/-- Modelled from the spec: "select the pair with the maximum `score` (ties
broken by first-seen order)" — the first pair of the list whose score is
maximal. -/
def specSelectTop (l : List LabelScore) : Option LabelScore :=
  l.find? (fun x => decide (∀ y ∈ l, y.score ≤ x.score))

/-! ## Session state machine — `src/frontend/src/App.jsx` -/

/-- The React state of `App` relevant to the session (App.jsx lines 10–15):
`isConnected`, `status`, `volume`, `emotion`, `isSpeaking`, and the message
log.  A log entry is `(role, content)`; the `Date.now()` timestamp attached
on append is elided (no claim concerns it). -/
structure SessionState where
  isConnected : Bool
  status : String
  volume : ℚ
  emotion : String
  isSpeaking : Bool
  messages : List (String × String)
  deriving Repr, DecidableEq

/-- Initial React state (App.jsx lines 10–15). -/
def initialState : SessionState :=
  { isConnected := false, status := "disconnected", volume := 0
    emotion := "neutral", isSpeaking := false, messages := [] }

/-- The emotion update applied by `addMessage` for a `user` message
(App.jsx lines 96–122): `result.emotion === 'neutral'` shows happy; a truthy
(non-empty) `result.emotion` is adopted; otherwise, and when
`analyzeEmotionWithGemini` throws, fall back to happy. -/
def applyClassification (outcome : Except String ClassificationResult) : String :=
  match outcome with
  | .error _ => "happy"
  | .ok result =>
    if result.emotion = "neutral" then "happy"
    else if result.emotion ≠ "" then result.emotion
    else "happy"

/-- Embedding of `addMessage(role, content)` (App.jsx lines 88–129): append the message,
then, only for role `user`, classify and update the emotion.  `outcome` is
the settled result of the awaited `analyzeEmotionWithGemini` call
(`Except.error` when it throws). -/
def addMessage (s : SessionState) (role content : String)
    (outcome : Except String ClassificationResult) : SessionState :=
  let appended := { s with messages := s.messages ++ [(role, content)] }
  if role = "user" then
    { appended with emotion := applyClassification outcome }
  else appended

/-- Transport mode values admitted by the SDK callback contract of
`onModeChange` (App.jsx lines 389–394, spec §6). -/
inductive Mode where
  | listening
  | thinking
  | speaking
  deriving Repr, DecidableEq

/-- The mode string handed to `onModeChange`. -/
def modeString : Mode → String
  | .listening => "listening"
  | .thinking => "thinking"
  | .speaking => "speaking"

/-- Events that mutate the session state: the transport lifecycle callbacks
registered in `startSession` (App.jsx lines 336–404), the user actions
`startConversation` / `endConversation`, and one iteration of the
`updateVolume` monitor loop (App.jsx lines 415–423).  `classified` on
`onMessage` is the oracle outcome of the classification the appended user
message triggers; `startOk` tells whether session setup succeeded or threw
into the `catch` block (App.jsx lines 427–449); `hasConversation` mirrors
the `conversationRef.current` guard of `endConversation`. -/
inductive Event where
  | onConnect
  | onDisconnect (reason : Option String)
  | onError (message : Option String)
  | onModeChange (mode : Mode)
  | onMessage (source : String) (message : String)
      (classified : Except String ClassificationResult)
  | startConversation (startOk : Bool)
  | endConversation (hasConversation : Bool)
  | volumeSample (average : ℚ)

/-- One state transition of the App, mirroring the `set*` calls each
handler performs (system-message `addMessage` calls included).  The
`updateVolume` loop body runs only while connected and stores
`Math.min(100, (average / 255) * 200)`. -/
def step (s : SessionState) (e : Event) : SessionState :=
  match e with
  | .onConnect =>
    addMessage { s with isConnected := true, status := "connected"
                        emotion := "neutral", isSpeaking := false }
      "system" "Connected!" (.ok { emotion := "neutral" })
  | .onDisconnect reason =>
    addMessage { s with isConnected := false, status := "disconnected"
                        volume := 0, emotion := "sad", isSpeaking := false }
      "system" ("Disconnected: " ++ reason.getD "Connection ended")
      (.ok { emotion := "neutral" })
  | .onError message =>
    addMessage { s with status := "error", emotion := "sad", isSpeaking := false }
      "system" ("Error: " ++ message.getD "Unknown error occurred")
      (.ok { emotion := "neutral" })
  | .onModeChange mode =>
    { s with status := modeString mode, isSpeaking := mode = Mode.speaking }
  | .onMessage source message classified =>
    if source = "user" ∧ message ≠ "" then addMessage s "user" message classified
    else if source = "ai" ∧ message ≠ "" then
      addMessage s "assistant" message (.ok { emotion := "neutral" })
    else s
  | .startConversation startOk =>
    let connecting :=
      addMessage { s with status := "connecting", isSpeaking := false }
        "system" "Connecting to AI agent Alfred..." (.ok { emotion := "neutral" })
    if startOk then connecting
    else
      addMessage { connecting with status := "error", isConnected := false
                                   emotion := "sad", isSpeaking := false }
        "system" "Failed to start" (.ok { emotion := "neutral" })
  | .endConversation hasConversation =>
    if hasConversation then
      addMessage { s with isConnected := false, status := "disconnected"
                          volume := 0, emotion := "neutral", isSpeaking := false }
        "system" "Conversation ended" (.ok { emotion := "neutral" })
    else s
  | .volumeSample average =>
    if s.isConnected then { s with volume := min 100 (average / 255 * 200) } else s

/-- State after running a sequence of events from the initial state. -/
def run (es : List Event) : SessionState :=
  es.foldl step initialState

/-- Spec §3 projection of the merged `status` variable onto the data model's
`connectionStatus` attribute: the transport modes are states of an
established connection. -/
def connectionStatusOf (s : SessionState) : String :=
  if s.status = "connected" ∨ s.status = "listening" ∨
     s.status = "thinking" ∨ s.status = "speaking" then "connected"
  else s.status

/-- Spec §3 projection of the merged `status` variable onto the data model's
`mode` attribute. -/
def modeOf (s : SessionState) : String :=
  if s.status = "listening" ∨ s.status = "thinking" ∨ s.status = "speaking" then
    s.status
  else "idle"

/-- The inductive invariant backing the spec §3 session invariant: whenever
the merged `status` is `disconnected`, the connection flag is down and the
volume has been reset. -/
def DisconnectedInv (s : SessionState) : Prop :=
  s.status = "disconnected" → (s.isConnected = false ∧ s.volume = 0)

/-! ## Theorems -/

/-- C1: for a `user` utterance appended via `addMessage`, a classified
`neutral` becomes `happy`; any other non-empty classified emotion is adopted
directly; a thrown classification yields `happy`. -/
theorem addMessage_user_emotion_update (s : SessionState) (content : String)
    (r : ClassificationResult) (msg : String) :
    (r.emotion = "neutral" → (addMessage s "user" content (.ok r)).emotion = "happy")
    ∧ (r.emotion ≠ "neutral" → r.emotion ≠ "" →
        (addMessage s "user" content (.ok r)).emotion = r.emotion)
    ∧ (addMessage s "user" content (.error msg)).emotion = "happy" := by
  refine ⟨fun h => ?_, fun h1 h2 => ?_, ?_⟩ <;>
    simp [addMessage, applyClassification, *]

/-- Witness for `addMessage_user_emotion_update` at concrete inputs. -/
theorem addMessage_user_emotion_update_witness :
    (addMessage initialState "user" "ok dan" (.ok { emotion := "neutral" })).emotion = "happy"
    ∧ (addMessage initialState "user" "bah" (.ok { emotion := "sad" })).emotion = "sad"
    ∧ (addMessage initialState "user" "x" (.error "boom")).emotion = "happy" :=
  ⟨(addMessage_user_emotion_update initialState "ok dan" { emotion := "neutral" } "boom").1 rfl,
   (addMessage_user_emotion_update initialState "bah" { emotion := "sad" } "boom").2.1
     (by decide) (by decide),
   (addMessage_user_emotion_update initialState "x" { emotion := "sad" } "boom").2.2⟩

/-- C4: `onDisconnect` unconditionally — from every prior state, the error
state included — resets the volume to 0, forces the emotion to `sad`, and
sets the status to `disconnected`. -/
theorem onDisconnect_resets (s : SessionState) (reason : Option String) :
    (step s (.onDisconnect reason)).volume = 0
    ∧ (step s (.onDisconnect reason)).emotion = "sad"
    ∧ (step s (.onDisconnect reason)).status = "disconnected"
    ∧ (step s (.onDisconnect reason)).isConnected = false := by
  simp [step, addMessage]

/-- C5 counterexample: `onConnect` does not reset the volume — from a state
with volume 42 it leaves the volume at 42. -/
theorem onConnect_volume_counterexample :
    (step { isConnected := false, status := "connecting", volume := 42,
            emotion := "sad", isSpeaking := false, messages := [] }
        Event.onConnect).volume = 42
    ∧ ((42 : ℚ) ≠ 0) := by
  constructor
  · rfl
  · norm_num

/-- C5 amended: `onConnect` resets the emotion to `neutral`, sets the status
to `connected`, raises the connection flag and lowers the speaking flag, for
every prior state — but it leaves the volume unchanged. -/
theorem onConnect_updates (s : SessionState) :
    (step s Event.onConnect).emotion = "neutral"
    ∧ (step s Event.onConnect).status = "connected"
    ∧ (step s Event.onConnect).isConnected = true
    ∧ (step s Event.onConnect).isSpeaking = false
    ∧ (step s Event.onConnect).volume = s.volume := by
  simp [step, addMessage]

/-- All-whitespace strings trim to the empty string under the JS trim
model. -/
theorem jsTrim_eq_empty_of_whitespace (text : String)
    (h : ∀ c ∈ text.data, c.isWhitespace) : jsTrim text = "" := by
  unfold jsTrim
  have h1 : text.data.dropWhile Char.isWhitespace = [] :=
    List.dropWhile_eq_nil_iff.mpr h
  rw [h1]
  rfl

/-- C6: on an empty or whitespace-only input, `analyzeEmotionWithGemini`
returns `emotion: neutral, scores: empty` having issued no network request
and without reaching the rate-limiter block, and leaves `lastRequestTime`
untouched. -/
theorem classify_whitespace_short_circuit (key : Option String) (text : String)
    (outcome : HFOutcome) (lastRequestTime now : ℤ)
    (h : ∀ c ∈ text.data, c.isWhitespace) :
    analyzeEmotionWithGemini key text outcome lastRequestTime now =
      { result := { emotion := "neutral", scores := [] }
        networkCalls := 0
        limiterAcquired := false
        lastRequestTimeAfter := lastRequestTime } := by
  have htrim : jsTrim text = "" := jsTrim_eq_empty_of_whitespace text h
  simp [analyzeEmotionWithGemini, htrim]

/-- Witness for `classify_whitespace_short_circuit` on a two-space input. -/
theorem classify_whitespace_short_circuit_witness :
    analyzeEmotionWithGemini none "  " (.ok .otherShape) 5 7 =
      { result := { emotion := "neutral", scores := [] }
        networkCalls := 0
        limiterAcquired := false
        lastRequestTimeAfter := 5 } :=
  classify_whitespace_short_circuit none "  " (.ok .otherShape) 5 7 (by decide)

/-- C7: whenever the provider attempt fails — thrown error, non-2xx status,
model-loading signal, malformed shape, or missing key — the classification
entry point still returns normally (it is a total function), with emotion
`neutral`, empty `scores`, and an `error` field carrying the failure
message. -/
theorem classify_degrades_to_neutral (key : Option String) (text : String)
    (outcome : HFOutcome) (lastRequestTime now : ℤ) (msg : String)
    (hne : jsTrim text ≠ "")
    (hfail : analyzeEmotionWithHuggingFace key text outcome = .error msg) :
    (analyzeEmotionWithGemini key text outcome lastRequestTime now).result.emotion = "neutral"
    ∧ (analyzeEmotionWithGemini key text outcome lastRequestTime now).result.scores = []
    ∧ (analyzeEmotionWithGemini key text outcome lastRequestTime now).result.error = some msg := by
  have htext : ¬(text = "" ∨ jsTrim text = "") := by
    rintro (rfl | hw)
    · exact hne rfl
    · exact hne hw
  simp [analyzeEmotionWithGemini, htext, hfail]

/-- Witness for `classify_degrades_to_neutral`: with no API key configured
the single attempt throws, and the entry point degrades to neutral. -/
theorem classify_degrades_to_neutral_witness :
    (analyzeEmotionWithGemini none "hoi" (.ok .otherShape) 0 0).result.emotion = "neutral"
    ∧ (analyzeEmotionWithGemini none "hoi" (.ok .otherShape) 0 0).result.scores = []
    ∧ (analyzeEmotionWithGemini none "hoi" (.ok .otherShape) 0 0).result.error
        = some "No Hugging Face API key" :=
  classify_degrades_to_neutral none "hoi" (.ok .otherShape) 0 0
    "No Hugging Face API key" (by decide) rfl

/-- C9: for a non-empty input the call records
`rateLimitStep lastRequestTime now` as the new `lastRequestTime`; the
recorded start is at least `MIN_REQUEST_INTERVAL` (3000 ms) after the
previously recorded start, and not before `now` — the limiter only delays,
it never fails (the model is a total function). -/
theorem classify_rate_limit_spacing (key : Option String) (text : String)
    (outcome : HFOutcome) (lastRequestTime now : ℤ)
    (h : jsTrim text ≠ "") :
    (analyzeEmotionWithGemini key text outcome lastRequestTime now).lastRequestTimeAfter
      = rateLimitStep lastRequestTime now
    ∧ lastRequestTime + MIN_REQUEST_INTERVAL ≤ rateLimitStep lastRequestTime now
    ∧ now ≤ rateLimitStep lastRequestTime now := by
  have htext : ¬(text = "" ∨ jsTrim text = "") := by
    rintro (rfl | hw)
    · exact h rfl
    · exact h hw
  refine ⟨?_, ?_, ?_⟩
  · cases hres : analyzeEmotionWithHuggingFace key text outcome <;>
      simp [analyzeEmotionWithGemini, htext, hres]
  · simp only [rateLimitStep, MIN_REQUEST_INTERVAL]
    split <;> omega
  · simp only [rateLimitStep, MIN_REQUEST_INTERVAL]
    split <;> omega

/-- Witness for `classify_rate_limit_spacing`: a second call issued 1000 ms
after the first records a start 3000 ms after the first. -/
theorem classify_rate_limit_spacing_witness :
    (analyzeEmotionWithGemini none "hoi" (.ok .otherShape) 0 1000).lastRequestTimeAfter
      = rateLimitStep 0 1000
    ∧ (0 : ℤ) + MIN_REQUEST_INTERVAL ≤ rateLimitStep 0 1000
    ∧ (1000 : ℤ) ≤ rateLimitStep 0 1000 :=
  classify_rate_limit_spacing none "hoi" (.ok .otherShape) 0 1000 (by decide)

/-- The function `List.find?` only depends on the predicate's values on the list. -/
theorem find?_congrOn {α : Type} (p q : α → Bool) :
    ∀ (l : List α), (∀ x ∈ l, p x = q x) → l.find? p = l.find? q := by
  intro l
  induction l with
  | nil => intro _; rfl
  | cons a t ih =>
    intro h
    have ha : p a = q a := h a (List.mem_cons_self a t)
    have ht := ih (fun x hx => h x (List.mem_cons_of_mem a hx))
    cases hqa : q a with
    | true =>
      rw [List.find?_cons_of_pos t (by rw [ha, hqa]), List.find?_cons_of_pos t hqa]
    | false =>
      rw [List.find?_cons_of_neg t (by rw [ha, hqa]; exact Bool.false_ne_true),
          List.find?_cons_of_neg t (by rw [hqa]; exact Bool.false_ne_true), ht]

/-- The JS reduce keeps its accumulator when nothing beats it. -/
theorem reduceMax_of_forall_le (e : LabelScore) (cs : List LabelScore)
    (h : ∀ y ∈ cs, y.score ≤ e.score) : reduceMax e cs = e := by
  induction cs generalizing e with
  | nil => rfl
  | cons c t ih =>
    have hc : c.score ≤ e.score := h c (List.mem_cons_self c t)
    have hstep : reduceMax e (c :: t) = reduceMax e t := by
      unfold reduceMax
      simp only [List.foldl_cons]
      rw [if_neg (not_lt.mpr hc)]
    rw [hstep]
    exact ih e (fun y hy => h y (List.mem_cons_of_mem c hy))

/-- The JS `reduce` with strict `>` returns the first pair attaining the
maximal score: it refines the spec's "maximum score, ties broken by
first-seen order" selection. -/
theorem specSelectTop_eq_reduceMax (e : LabelScore) (rest : List LabelScore) :
    specSelectTop (e :: rest) = some (reduceMax e rest) := by
  induction rest generalizing e with
  | nil =>
    show List.find? _ [e] = some (reduceMax e [])
    have : reduceMax e [] = e := rfl
    rw [this]
    apply List.find?_cons_of_pos
    simp
  | cons c cs ih =>
    by_cases hce : e.score < c.score
    · have hred : reduceMax e (c :: cs) = reduceMax c cs := by
        unfold reduceMax
        simp only [List.foldl_cons]
        rw [if_pos hce]
      rw [hred, ← ih c]
      unfold specSelectTop
      have hPe : ¬((fun x => decide (∀ y ∈ e :: c :: cs, y.score ≤ x.score)) e = true) := by
        simp only [decide_eq_true_eq]
        intro hall
        exact absurd (hall c (by simp)) (not_le.mpr hce)
      rw [List.find?_cons_of_neg
        (p := fun (x : LabelScore) => decide (∀ y ∈ e :: c :: cs, y.score ≤ x.score)) _ hPe]
      apply find?_congrOn
      intro x _
      rw [decide_eq_decide]
      constructor
      · intro hall y hy
        exact hall y (List.mem_cons_of_mem e hy)
      · intro hall y hy
        rcases List.mem_cons.mp hy with rfl | hy2
        · exact le_of_lt (lt_of_lt_of_le hce (hall c (List.mem_cons_self c cs)))
        · exact hall y hy2
    · have hec : c.score ≤ e.score := not_lt.mp hce
      have hred : reduceMax e (c :: cs) = reduceMax e cs := by
        unfold reduceMax
        simp only [List.foldl_cons]
        rw [if_neg hce]
      rw [hred]
      by_cases hall : ∀ y ∈ cs, y.score ≤ e.score
      · rw [reduceMax_of_forall_le e cs hall]
        apply List.find?_cons_of_pos
        simp only [decide_eq_true_eq]
        intro y hy
        rcases List.mem_cons.mp hy with rfl | hy2
        · exact le_refl _
        rcases List.mem_cons.mp hy2 with rfl | hy3
        · exact hec
        · exact hall y hy3
      · push_neg at hall
        obtain ⟨w, hw, hew⟩ := hall
        have hstep : specSelectTop (e :: cs)
            = List.find? (fun x => decide (∀ y ∈ e :: cs, y.score ≤ x.score)) cs := by
          apply List.find?_cons_of_neg
          simp only [decide_eq_true_eq]
          intro hall2
          exact absurd (hall2 w (List.mem_cons_of_mem e hw)) (not_le.mpr hew)
        unfold specSelectTop
        have hPe : ¬((fun x => decide (∀ y ∈ e :: c :: cs, y.score ≤ x.score)) e = true) := by
          simp only [decide_eq_true_eq]
          intro hall2
          exact absurd (hall2 w (List.mem_cons_of_mem e (List.mem_cons_of_mem c hw)))
            (not_le.mpr hew)
        have hPc : ¬((fun x => decide (∀ y ∈ e :: c :: cs, y.score ≤ x.score)) c = true) := by
          simp only [decide_eq_true_eq]
          intro hall2
          exact absurd (hall2 w (List.mem_cons_of_mem e (List.mem_cons_of_mem c hw)))
            (not_le.mpr (lt_of_le_of_lt hec hew))
        rw [List.find?_cons_of_neg
          (p := fun (x : LabelScore) => decide (∀ y ∈ e :: c :: cs, y.score ≤ x.score)) _ hPe,
          List.find?_cons_of_neg
          (p := fun (x : LabelScore) => decide (∀ y ∈ e :: c :: cs, y.score ≤ x.score)) _ hPc]
        calc List.find? (fun x => decide (∀ y ∈ e :: c :: cs, y.score ≤ x.score)) cs
            = List.find? (fun x => decide (∀ y ∈ e :: cs, y.score ≤ x.score)) cs := by
              apply find?_congrOn
              intro x _
              rw [decide_eq_decide]
              constructor
              · intro hall2 y hy
                rcases List.mem_cons.mp hy with h | h2
                · exact hall2 y (by rw [h]; exact List.mem_cons_self e (c :: cs))
                · exact hall2 y (List.mem_cons_of_mem e (List.mem_cons_of_mem c h2))
              · intro hall2 y hy
                rcases List.mem_cons.mp hy with h | h2
                · exact hall2 y (by rw [h]; exact List.mem_cons_self e cs)
                rcases List.mem_cons.mp h2 with h3 | h4
                · rw [h3]
                  exact le_trans hec (hall2 e (List.mem_cons_self e cs))
                · exact hall2 y (List.mem_cons_of_mem e h4)
          _ = specSelectTop (e :: cs) := hstep.symm
          _ = some (reduceMax e cs) := ih e

/-- C2 counterexample: on the classifier response
`[[disgust: 0.9, joy: 0.1]]` the code maps the top-scoring label `disgust`
to `angry`, not to `sad` as the claimed table says. -/
theorem hf_disgust_counterexample :
    analyzeEmotionWithHuggingFace (some "hf_key") "bah"
        (.ok (.nested [{ label := "disgust", score := mkRat 9 10 },
                       { label := "joy", score := mkRat 1 10 }] []))
      = .ok { emotion := "angry", confidence := some (mkRat 9 10)
              scores := [("angry", mkRat 9 10)], reasoning := some "Detected disgust" }
    ∧ ("angry" : String) ≠ "sad" :=
  ⟨rfl, by decide⟩

/-- C2 amended: the classifier branch selects the pair with the maximum
score, ties broken by first-seen order (the JS reduce refines the spec
selection), and maps its label case-insensitively through the fixed table
joy/happiness→happy, sadness/fear→sad, anger/disgust→angry,
surprise→surprised, neutral→neutral, unmapped→neutral; in particular a
top-scoring `disgust` yields `angry`. -/
theorem hf_selection_and_mapping (e : LabelScore) (rest : List LabelScore) :
    specSelectTop (e :: rest) = some (reduceMax e rest)
    ∧ mapTopEmotion (e :: rest)
        = .ok { emotion := jsMapLabel (reduceMax e rest).label
                confidence := some (reduceMax e rest).score
                scores := [(jsMapLabel (reduceMax e rest).label, (reduceMax e rest).score)]
                reasoning := some ("Detected " ++ (reduceMax e rest).label) }
    ∧ jsMapLabel "disgust" = "angry"
    ∧ jsMapLabel "Joy" = "happy" ∧ jsMapLabel "happiness" = "happy"
    ∧ jsMapLabel "SADNESS" = "sad" ∧ jsMapLabel "fear" = "sad"
    ∧ jsMapLabel "anger" = "angry" ∧ jsMapLabel "surprise" = "surprised"
    ∧ jsMapLabel "neutral" = "neutral" ∧ jsMapLabel "curiosity" = "neutral" :=
  ⟨specSelectTop_eq_reduceMax e rest, rfl, by decide, by decide, by decide, by decide,
   by decide, by decide, by decide, by decide, by decide⟩

/-- The label-to-emotion mapping only produces the five classifier
emotions. -/
theorem jsMapLabel_mem (label : String) :
    jsMapLabel label = "neutral" ∨ jsMapLabel label = "happy"
    ∨ jsMapLabel label = "sad" ∨ jsMapLabel label = "angry"
    ∨ jsMapLabel label = "surprised" := by
  unfold jsMapLabel
  dsimp only
  unfold emotionMapping
  split_ifs <;> simp

/-- A successful Hugging Face attempt only produces the five classifier
emotions. -/
theorem hf_ok_emotion_mem (key : Option String) (text : String)
    (outcome : HFOutcome) (r : ClassificationResult)
    (h : analyzeEmotionWithHuggingFace key text outcome = .ok r) :
    r.emotion = "neutral" ∨ r.emotion = "happy" ∨ r.emotion = "sad"
    ∨ r.emotion = "angry" ∨ r.emotion = "surprised" := by
  cases outcome with
  | fetchThrow m =>
    unfold analyzeEmotionWithHuggingFace at h
    split at h <;> simp at h
  | httpError st =>
    unfold analyzeEmotionWithHuggingFace at h
    split at h <;> simp at h
  | ok body =>
    cases body with
    | errorField m =>
      unfold analyzeEmotionWithHuggingFace at h
      split at h
      · simp at h
      · dsimp only at h
        split at h <;> simp at h
    | nested first rest2 =>
      cases first with
      | nil =>
        unfold analyzeEmotionWithHuggingFace at h
        split at h <;> simp [mapTopEmotion] at h
      | cons a t =>
        unfold analyzeEmotionWithHuggingFace at h
        split at h
        · simp at h
        · dsimp only at h
          simp only [mapTopEmotion, Except.ok.injEq] at h
          subst h
          simpa using jsMapLabel_mem ((reduceMax a t).label)
    | flat xs =>
      unfold analyzeEmotionWithHuggingFace at h
      split at h <;> simp at h
    | otherShape =>
      unfold analyzeEmotionWithHuggingFace at h
      split at h <;> simp at h

/-- C10: every result returned by the classification entry point carries an
emotion from the five-element set neutral/happy/sad/angry/surprised; in
particular `confused`, though part of the rendering vocabulary, is never
produced. -/
theorem classify_emotion_in_vocabulary (key : Option String) (text : String)
    (outcome : HFOutcome) (lastRequestTime now : ℤ) :
    ((analyzeEmotionWithGemini key text outcome lastRequestTime now).result.emotion = "neutral"
     ∨ (analyzeEmotionWithGemini key text outcome lastRequestTime now).result.emotion = "happy"
     ∨ (analyzeEmotionWithGemini key text outcome lastRequestTime now).result.emotion = "sad"
     ∨ (analyzeEmotionWithGemini key text outcome lastRequestTime now).result.emotion = "angry"
     ∨ (analyzeEmotionWithGemini key text outcome lastRequestTime now).result.emotion = "surprised")
    ∧ (analyzeEmotionWithGemini key text outcome lastRequestTime now).result.emotion
        ≠ "confused" := by
  have hmain : (analyzeEmotionWithGemini key text outcome lastRequestTime now).result.emotion = "neutral"
      ∨ (analyzeEmotionWithGemini key text outcome lastRequestTime now).result.emotion = "happy"
      ∨ (analyzeEmotionWithGemini key text outcome lastRequestTime now).result.emotion = "sad"
      ∨ (analyzeEmotionWithGemini key text outcome lastRequestTime now).result.emotion = "angry"
      ∨ (analyzeEmotionWithGemini key text outcome lastRequestTime now).result.emotion = "surprised" := by
    unfold analyzeEmotionWithGemini
    split
    · left; rfl
    · cases hres : analyzeEmotionWithHuggingFace key text outcome with
      | ok r =>
        simp only [hres]
        exact hf_ok_emotion_mem key text outcome r hres
      | error m => simp [hres]
  refine ⟨hmain, ?_⟩
  rcases hmain with h | h | h | h | h <;> rw [h] <;> decide

/-- The operation `addMessage` never touches the connection flag, the status or the
volume. -/
theorem addMessage_preserves (s : SessionState) (role content : String)
    (o : Except String ClassificationResult) :
    (addMessage s role content o).status = s.status
    ∧ (addMessage s role content o).volume = s.volume
    ∧ (addMessage s role content o).isConnected = s.isConnected := by
  unfold addMessage
  split <;> simp

/-- The transition `step` preserves the disconnected invariant `DisconnectedInv`. -/
theorem step_preserves_DisconnectedInv (s : SessionState) (e : Event)
    (h : DisconnectedInv s) : DisconnectedInv (step s e) := by
  cases e with
  | onConnect =>
    intro hst
    simp [step, addMessage] at hst
  | onDisconnect reason =>
    intro _
    simp [step, addMessage]
  | onError m =>
    intro hst
    simp [step, addMessage] at hst
  | onModeChange m =>
    intro hst
    cases m <;> simp [step, addMessage, modeString] at hst
  | onMessage src msg cls =>
    intro hst
    simp only [step] at hst ⊢
    by_cases h1 : src = "user" ∧ msg ≠ ""
    · rw [if_pos h1] at hst ⊢
      rw [(addMessage_preserves s "user" msg cls).1] at hst
      rw [(addMessage_preserves s "user" msg cls).2.1,
          (addMessage_preserves s "user" msg cls).2.2]
      exact ⟨(h hst).1, (h hst).2⟩
    · rw [if_neg h1] at hst ⊢
      by_cases h2 : src = "ai" ∧ msg ≠ ""
      · rw [if_pos h2] at hst ⊢
        rw [(addMessage_preserves s "assistant" msg (.ok { emotion := "neutral" })).1] at hst
        rw [(addMessage_preserves s "assistant" msg (.ok { emotion := "neutral" })).2.1,
            (addMessage_preserves s "assistant" msg (.ok { emotion := "neutral" })).2.2]
        exact ⟨(h hst).1, (h hst).2⟩
      · rw [if_neg h2] at hst ⊢
        exact h hst
  | startConversation startOk =>
    intro hst
    cases startOk <;> simp [step, addMessage] at hst
  | endConversation hasConversation =>
    intro hst
    cases hasConversation with
    | true => simp [step, addMessage]
    | false =>
      simp only [step] at hst ⊢
      exact h hst
  | volumeSample v =>
    intro hst
    simp only [step] at hst ⊢
    by_cases hc : s.isConnected = true
    · rw [if_pos hc] at hst ⊢
      simp only at hst
      have hdis := h hst
      rw [hdis.1] at hc
      exact absurd hc (by simp)
    · rw [if_neg hc] at hst ⊢
      exact h hst

/-- Every reachable session state satisfies the disconnected invariant. -/
theorem run_DisconnectedInv (es : List Event) : DisconnectedInv (run es) := by
  suffices hgen : ∀ s, DisconnectedInv s → DisconnectedInv (es.foldl step s) by
    exact hgen initialState (fun _ => ⟨rfl, rfl⟩)
  induction es with
  | nil => exact fun s hs => hs
  | cons e t ih =>
    exact fun s hs => ih (step s e) (step_preserves_DisconnectedInv s e hs)

/-- C3: in every session state reachable by transport callbacks, user
actions and volume samples, `mode = speaking` implies
`connectionStatus = connected`, and `connectionStatus = disconnected`
implies `mode = idle` and zero volume (the spec §3 attributes are
projections of the merged `status` variable). -/
theorem session_invariant (es : List Event) :
    (modeOf (run es) = "speaking" → connectionStatusOf (run es) = "connected")
    ∧ (connectionStatusOf (run es) = "disconnected" →
        modeOf (run es) = "idle" ∧ (run es).volume = 0) := by
  constructor
  · intro hm
    have hst : (run es).status = "speaking" := by
      unfold modeOf at hm
      split at hm
      · exact hm
      · exact absurd hm (by decide)
    simp [connectionStatusOf, hst]
  · intro hc
    have hst : (run es).status = "disconnected" := by
      unfold connectionStatusOf at hc
      split at hc
      · exact absurd hc (by decide)
      · exact hc
    exact ⟨by simp [modeOf, hst], (run_DisconnectedInv es hst).2⟩

/-- Witness for `session_invariant`: a connect followed by a speaking mode
change reaches a speaking state that is connected, and the initial state is
disconnected, idle, with zero volume. -/
theorem session_invariant_witness :
    connectionStatusOf (run [Event.onConnect, Event.onModeChange Mode.speaking])
      = "connected"
    ∧ (modeOf (run []) = "idle" ∧ (run []).volume = 0) :=
  ⟨(session_invariant [Event.onConnect, Event.onModeChange Mode.speaking]).1 (by decide),
   (session_invariant []).2 (by decide)⟩

/-- The function `dropWhile` skips a whole prefix on which the predicate holds. -/
theorem dropWhile_append_all {p : Char → Bool} :
    ∀ (pre l : List Char), (∀ c ∈ pre, p c = true) →
      (pre ++ l).dropWhile p = l.dropWhile p := by
  intro pre
  induction pre with
  | nil => intro l _; rfl
  | cons a t ih =>
    intro l h
    have ha : p a = true := h a (List.mem_cons_self a t)
    rw [List.cons_append, List.dropWhile_cons, if_pos ha]
    exact ih l (fun c hc => h c (List.mem_cons_of_mem a hc))

/-- When the text after the object holds no closing brace, the last closing
brace of the whole span is the object's own. -/
theorem upToLastClose_single (mid post : List Char)
    (hpost : ∀ c ∈ post, c ≠ '}') :
    upToLastClose ('{' :: (mid ++ ('}' :: post))) = '{' :: (mid ++ ['}']) := by
  unfold upToLastClose
  rw [show ('{' :: (mid ++ ('}' :: post))).reverse
      = post.reverse ++ ('}' :: (mid.reverse ++ ['{'])) from by simp]
  rw [dropWhile_append_all post.reverse ('}' :: (mid.reverse ++ ['{']))
      (fun c hc => decide_eq_true (hpost c (List.mem_reverse.mp hc)))]
  rw [List.dropWhile_cons, if_neg (by decide)]
  simp

/-- The scanner `takeBalanced` at depth 1 over brace-free text closes at the next
closing brace. -/
theorem takeBalanced_flat (post : List Char) :
    ∀ (mid acc : List Char), (∀ c ∈ mid, c ≠ '{' ∧ c ≠ '}') →
      takeBalanced (mid ++ ('}' :: post)) 1 acc
        = some (('}' :: (mid.reverse ++ acc)).reverse) := by
  intro mid
  induction mid with
  | nil =>
    intro acc _
    rw [List.nil_append]
    unfold takeBalanced
    rw [if_neg (by decide), if_pos rfl, if_pos rfl]
    rfl
  | cons a t ih =>
    intro acc h
    have ha := h a (List.mem_cons_self a t)
    rw [List.cons_append]
    unfold takeBalanced
    rw [if_neg ha.1, if_neg ha.2]
    rw [ih (a :: acc) (fun c hc => h c (List.mem_cons_of_mem a hc))]
    simp

/-- C8 amended, positive part: when the reply is a balanced brace-free
object with brace-free text before it and close-brace-free text after it,
the greedy extraction returns exactly that object, and agrees with the
spec's first-balanced-substring extraction. -/
theorem jsonMatch_single_object (pre mid post : List Char)
    (hpre : ∀ c ∈ pre, c ≠ '{')
    (hmid : ∀ c ∈ mid, c ≠ '{' ∧ c ≠ '}')
    (hpost : ∀ c ∈ post, c ≠ '}') :
    jsonMatch (pre ++ ('{' :: (mid ++ ('}' :: post)))) = some ('{' :: (mid ++ ['}']))
    ∧ firstBalanced (pre ++ ('{' :: (mid ++ ('}' :: post))))
        = some ('{' :: (mid ++ ['}'])) := by
  have hdrop : (pre ++ ('{' :: (mid ++ ('}' :: post)))).dropWhile (fun c => c ≠ '{')
      = '{' :: (mid ++ ('}' :: post)) := by
    rw [dropWhile_append_all pre ('{' :: (mid ++ ('}' :: post)))
        (fun c hc => decide_eq_true (hpre c hc))]
    rw [List.dropWhile_cons, if_neg (by decide)]
  constructor
  · simp only [jsonMatch]
    rw [hdrop, upToLastClose_single mid post hpost]
    simp
  · unfold firstBalanced
    rw [hdrop]
    unfold takeBalanced
    rw [if_pos rfl]
    simp only [Nat.zero_add]
    rw [takeBalanced_flat post mid ['{'] hmid]
    simp

/-- Witness for `jsonMatch_single_object` on the spec's example reply
`Hello ("emotion":"sad") world` (with braces around the object). -/
theorem jsonMatch_single_object_witness :
    jsonMatch ("Hello ".data
        ++ ('{' :: ("\x22emotion\x22:\x22sad\x22".data ++ ('}' :: " world".data))))
      = some ('{' :: ("\x22emotion\x22:\x22sad\x22".data ++ ['}']))
    ∧ firstBalanced ("Hello ".data
        ++ ('{' :: ("\x22emotion\x22:\x22sad\x22".data ++ ('}' :: " world".data))))
      = some ('{' :: ("\x22emotion\x22:\x22sad\x22".data ++ ['}'])) :=
  jsonMatch_single_object "Hello ".data "\x22emotion\x22:\x22sad\x22".data
    " world".data (by decide) (by decide) (by decide)

/-- C8 counterexample: on a reply holding two objects, the greedy regex
match runs from the first opening brace through the very last closing
brace, which is not the first balanced brace substring. -/
theorem jsonMatch_greedy_counterexample :
    jsonMatchStr "a\x7bx\x7db\x7by\x7dc" = some "\x7bx\x7db\x7by\x7d"
    ∧ firstBalancedStr "a\x7bx\x7db\x7by\x7dc" = some "\x7bx\x7d"
    ∧ jsonMatchStr "a\x7bx\x7db\x7by\x7dc" ≠ firstBalancedStr "a\x7bx\x7db\x7by\x7dc" :=
  ⟨by decide, by decide, by decide⟩

end Alfred
